import Mathlib

/-!
Verification of the heart-disease prediction front-end
(`src/02.streamlit_app_new.py`) against its specification.

The development shallowly embeds the app's logic: pandas dataframes become
association lists of named columns of cells, the scikit-learn predictor is an
abstract record of (possibly failing) functions, Python exceptions become
`Except`/`Option` results, and the Streamlit presentation calls become fields
of explicit outcome records.  Python floats are modelled as exact decimal
numbers (`Dec`), which is the granularity at which the app's CSV and display
formatting operate.
-/

namespace HeartApp

/-- An exact decimal number `m / 10 ^ e`; the model of a Python float value
(every IEEE double prints and reads back as a finite decimal). -/
structure Dec where
  m : Int
  e : Nat
deriving DecidableEq, Repr

def Dec.toRat (d : Dec) : ℚ := (d.m : ℚ) / (10 : ℚ) ^ d.e

/-- A dataframe cell: an integer, a float (decimal), or a string. -/
inductive Cell where
  | int (n : Int)
  | dec (m : Int) (e : Nat)
  | str (s : String)
deriving DecidableEq, Repr

/-- A pandas dataframe: named columns of cells, in order. -/
abbrev DataFrame := List (String × List Cell)

def colNames (df : DataFrame) : List String := df.map Prod.fst

/-- Number of rows (length of the first column; 0 for a column-less frame). -/
def rowCount (df : DataFrame) : Nat :=
  match df with
  | [] => 0
  | c :: _ => c.2.length

/-- All columns have the same length. -/
def Rectangular (df : DataFrame) : Prop :=
  ∀ c ∈ df, c.2.length = rowCount df

instance : DecidablePred Rectangular := fun df =>
  inferInstanceAs (Decidable (∀ c ∈ df, c.2.length = rowCount df))

/-- `df[name] = vals` in pandas: overwrite the column in place if the name
exists, append it at the end otherwise; a length mismatch against a nonempty
frame raises (`none`). -/
def setCol? (df : DataFrame) (nm : String) (vals : List Cell) : Option DataFrame :=
  if df.isEmpty then some [(nm, vals)]
  else if vals.length = rowCount df then
    some (if (colNames df).contains nm
          then df.map (fun c => if c.1 = nm then (nm, vals) else c)
          else df ++ [(nm, vals)])
  else none

/-- The deserialized predictor object.  `predict` and `predict_proba` may
raise (`Except.error` carries the exception text); `hasProba` models
`hasattr(model, "predict_proba")`.  `tag` gives objects an identity so that
"the identical cached instance" is expressible. -/
structure ModelObj where
  tag : Nat
  predict : DataFrame → Except String (List Cell)
  hasProba : Bool
  predictProba : DataFrame → Except String (List (List Dec))

/-! ### Model artifact resolver (source lines 16–26) -/

/-- `possible_paths` from `resolve_model_path`: the four candidate locations,
in source order (`os.path.join` with `/` separators). -/
def possible_paths (filename : String) : List String :=
  ["models/" ++ filename, "src/" ++ filename, filename, "../models/" ++ filename]

/-- `resolve_model_path`, parametrized by the filesystem's `os.path.exists`. -/
def resolve_model_path (ex : String → Bool) (filename : String) : Option String :=
  (possible_paths filename).find? ex

/-! ### Model loader (source lines 28–38) -/

/-- One un-cached run of the `load_model` body: resolve the path and, if
found, deserialize (`joblib.load`, modelled by `deser`); a deserialization
failure is caught and reported (second component) and yields `none`. -/
def load_model_attempt (ex : String → Bool)
    (deser : String → Except String ModelObj) : Option ModelObj × Option String :=
  match resolve_model_path ex "best_model.pkl" with
  | some path =>
    match deser path with
    | .ok m => (some m, none)
    | .error e => (none, some ("Error loading model: " ++ e))
  | none => (none, none)

/-- The gate at the top of `main`: with no model, an error is shown and the
function returns (the rest of the interaction is disabled). -/
def mainGate (model : Option ModelObj) : Option String :=
  match model with
  | none => some "Model file (`best_model.pkl`) not found!"
  | some _ => none

/-! ### `st.cache_resource` semantics

`load_model` is decorated with `@st.cache_resource`: the function body runs
only when the cache slot is empty, and its return value — whatever it is,
including `None` — is stored and returned for every later call.  The world
(filesystem and deserializer) may change between calls, so the un-cached
result is a function of the call index. -/

/-- The un-cached `load_model` result at call index `t`, for a time-varying
world giving `os.path.exists` and `joblib.load`. -/
def rawLoadOf (world : Nat → (String → Bool) × (String → Except String ModelObj))
    (t : Nat) : Option ModelObj :=
  (load_model_attempt (world t).1 (world t).2).1

/-- Cache slot after `n` calls: `none` = never called, `some r` = the stored
return value `r`. -/
def slotAfter (raw : Nat → Option ModelObj) : Nat → Option (Option ModelObj)
  | 0 => none
  | n + 1 =>
    match slotAfter raw n with
    | some r => some r
    | none => some (raw n)

/-- Result of call number `n` (0-indexed), after calls `0 … n-1`. -/
def callResult (raw : Nat → Option ModelObj) (n : Nat) : Option ModelObj :=
  match slotAfter raw n with
  | some r => r
  | none => raw n

/-- How many times the body actually ran (file read / deserialization
attempts) during the first `n` calls. -/
def loadCount (raw : Nat → Option ModelObj) : Nat → Nat
  | 0 => 0
  | n + 1 =>
    loadCount raw n +
      (match slotAfter raw n with
       | some _ => 0
       | none => 1)

/-! ### Manual input encoder (source lines 57–126) -/

/-- `needle`-starts-`hay` check on character lists. -/
def startsWithChars : List Char → List Char → Bool
  | [], _ => true
  | _ :: _, [] => false
  | a :: as, b :: bs => a = b && startsWithChars as bs

/-- Substring occurrence on character lists. -/
def hasSub (needle : List Char) : List Char → Bool
  | [] => needle.isEmpty
  | c :: t => startsWithChars needle (c :: t) || hasSub needle t

/-- Python's `needle in hay` on strings. -/
def strContains (hay needle : String) : Bool := hasSub needle.data hay.data

/-- `cp_map` dict (line 67); a missing key raises, hence `Option`. -/
def cp_map (s : String) : Option Int :=
  if s = "Typical Angina (1)" then some 1
  else if s = "Atypical Angina (2)" then some 2
  else if s = "Non-Anginal Pain (3)" then some 3
  else if s = "Asymptomatic (4)" then some 4
  else none

/-- `ecg_map` dict (line 82). -/
def ecg_map (s : String) : Option Int :=
  if s = "Normal (0)" then some 0
  else if s = "ST-T Abnormality (1)" then some 1
  else if s = "LV Hypertrophy (2)" then some 2
  else none

/-- `slope_map` dict (line 96). -/
def slope_map (s : String) : Option Int :=
  if s = "Upsloping (1)" then some 1
  else if s = "Flat (2)" then some 2
  else if s = "Downsloping (3)" then some 3
  else none

/-- `thal_map` dict (line 103). -/
def thal_map (s : String) : Option Int :=
  if s = "Normal (3)" then some 3
  else if s = "Fixed Defect (6)" then some 6
  else if s = "Reversible Defect (7)" then some 7
  else none

/-- The encoder: the widget values (lines 58–104) to the `input_data` dict /
single-row `input_df` (lines 110–126).  Dict insertion order is preserved.
`sex_val`, `fbs_val`, `exang_val` are the inline conditionals of lines 62, 78
and 90; the four dict lookups can raise, hence `Option`. -/
def encodeManual (age : Int) (sex_disp cp_disp : String) (trestbps chol : Int)
    (fbs_disp ecg_disp : String) (thalach : Int) (exang_disp : String)
    (oldpeak : Cell) (slope_disp : String) (ca : Int) (thal_disp : String) :
    Option DataFrame := do
  let cp_val ← cp_map cp_disp
  let ecg_val ← ecg_map ecg_disp
  let slope_val ← slope_map slope_disp
  let thal_val ← thal_map thal_disp
  pure [("Age", [Cell.int age]),
        ("Sex", [Cell.int (if sex_disp = "Male" then 1 else 0)]),
        ("Chest pain type", [Cell.int cp_val]),
        ("BP", [Cell.int trestbps]),
        ("Cholesterol", [Cell.int chol]),
        ("FBS over 120", [Cell.int (if strContains fbs_disp "True" then 1 else 0)]),
        ("EKG results", [Cell.int ecg_val]),
        ("Max HR", [Cell.int thalach]),
        ("Exercise angina", [Cell.int (if strContains exang_disp "Yes" then 1 else 0)]),
        ("ST depression", [oldpeak]),
        ("Slope of ST", [Cell.int slope_val]),
        ("Number of vessels fluro", [Cell.int ca]),
        ("Thallium", [Cell.int thal_val])]

/-! Spec-side mapping (the documented domain-to-code table of spec §3/§4.3),
used to state the encoder claim as a refinement: these definitions follow the
spec's words, not the source. -/

def specSexVal (s : String) : Int := if s = "Male" then 1 else 0

def specCpVal (s : String) : Int :=
  if s = "Typical Angina (1)" then 1
  else if s = "Atypical Angina (2)" then 2
  else if s = "Non-Anginal Pain (3)" then 3
  else 4

def specFbsVal (s : String) : Int := if s = "True (1)" then 1 else 0

def specEcgVal (s : String) : Int :=
  if s = "Normal (0)" then 0
  else if s = "ST-T Abnormality (1)" then 1
  else 2

def specExangVal (s : String) : Int := if s = "Yes (1)" then 1 else 0

def specSlopeVal (s : String) : Int :=
  if s = "Upsloping (1)" then 1
  else if s = "Flat (2)" then 2
  else 3

def specThalVal (s : String) : Int :=
  if s = "Normal (3)" then 3
  else if s = "Fixed Defect (6)" then 6
  else 7

/-- The FeatureRecord the spec documents: 13 fields, fixed names and order,
numeric fields passed through, categorical labels mapped by the §3 table. -/
def specRecord (age : Int) (sex_disp cp_disp : String) (trestbps chol : Int)
    (fbs_disp ecg_disp : String) (thalach : Int) (exang_disp : String)
    (oldpeak : Cell) (slope_disp : String) (ca : Int) (thal_disp : String) :
    DataFrame :=
  [("Age", [Cell.int age]),
   ("Sex", [Cell.int (specSexVal sex_disp)]),
   ("Chest pain type", [Cell.int (specCpVal cp_disp)]),
   ("BP", [Cell.int trestbps]),
   ("Cholesterol", [Cell.int chol]),
   ("FBS over 120", [Cell.int (specFbsVal fbs_disp)]),
   ("EKG results", [Cell.int (specEcgVal ecg_disp)]),
   ("Max HR", [Cell.int thalach]),
   ("Exercise angina", [Cell.int (specExangVal exang_disp)]),
   ("ST depression", [oldpeak]),
   ("Slope of ST", [Cell.int (specSlopeVal slope_disp)]),
   ("Number of vessels fluro", [Cell.int ca]),
   ("Thallium", [Cell.int (specThalVal thal_disp)])]

/-! ### Decimal numeral writing and parsing

Exactly the formats Python/pandas use for `int` and `float` values in CSV
text and display: ints as `-?[0-9]+`, floats as `-?[0-9]+.[0-9]+`. -/

def digitChar : Nat → Char
  | 0 => '0' | 1 => '1' | 2 => '2' | 3 => '3' | 4 => '4'
  | 5 => '5' | 6 => '6' | 7 => '7' | 8 => '8' | 9 => '9'
  | _ => '?'

def digitVal (c : Char) : Nat := c.toNat - 48

/-- Little-endian base-10 digits of `n`, fuel-recursive so it reduces in the
kernel (`fuel ≥ n` suffices). -/
def natDigitsRev (fuel n : Nat) : List Nat :=
  match fuel with
  | 0 => []
  | f + 1 => if n = 0 then [] else n % 10 :: natDigitsRev f (n / 10)

/-- Decimal numeral of a natural number, most significant digit first. -/
def writeNatChars (n : Nat) : List Char :=
  if n = 0 then ['0'] else ((natDigitsRev n n).map digitChar).reverse

def writeIntChars (n : Int) : List Char :=
  (if n < 0 then ['-'] else []) ++ writeNatChars n.natAbs

def parseNatChars (l : List Char) : Nat :=
  Nat.ofDigits 10 ((l.map digitVal).reverse)

/-- Leading minus sign. -/
def hasSign (l : List Char) : Bool := l.head? = some '-'

def stripSign (l : List Char) : List Char := if hasSign l then l.tail else l

def parseIntChars (l : List Char) : Int :=
  if hasSign l then -(parseNatChars l.tail : Int) else (parseNatChars l : Int)

/-- The float rendering `m / 10 ^ e`: at least one digit on each side of the
dot (pandas prints e.g. `1.0`, `0.5`, `-391.85`). -/
def decChars (m : Int) (e : Nat) : List Char :=
  let e1 := max e 1
  let m1 := if e = 0 then m * 10 else m
  let ds := writeNatChars m1.natAbs
  let pad := if ds.length < e1 + 1 then List.replicate (e1 + 1 - ds.length) '0' ++ ds else ds
  (if m1 < 0 then ['-'] else []) ++ pad.take (pad.length - e1) ++ '.' :: pad.drop (pad.length - e1)

/-! ### Single-record predictor (source lines 132–146) -/

/-- Numeric value of a cell as an exact decimal fraction `a / 10 ^ b`,
when it has one. -/
def Cell.numVal? : Cell → Option (Int × Nat)
  | .int n => some (n, 0)
  | .dec m e => some (m, e)
  | .str _ => none

/-- Python `==` on cell values: numbers compare by value across int/float
(`x / 10^p = y / 10^q` by cross-multiplication), a number and a string are
unequal, strings compare as strings. -/
def pyEq (a b : Cell) : Bool :=
  match a.numVal?, b.numVal? with
  | some (x, p), some (y, q) => x * Int.ofNat (10 ^ q) = y * Int.ofNat (10 ^ p)
  | some _, none => false
  | none, some _ => false
  | none, none => a = b

/-- The verdict branch (line 140): `prediction == 1 or prediction == "Presence"`. -/
def verdictOf (p : Cell) : Bool :=
  pyEq p (Cell.int 1) || pyEq p (Cell.str "Presence")

/-- Round the fraction `n / D` (with `D > 0`) to the nearest integer, ties to
even — Python's float formatting.  `f = ⌊n / D⌋`, remainder `r = n - f * D ∈
[0, D)`; compare `r` against `D / 2` by cross-multiplication. -/
def roundHalfEvenFrac (n D : Int) : Int :=
  let f : Int := Int.ediv n D
  let r : Int := n - f * D
  if 2 * r < D then f
  else if D < 2 * r then f + 1
  else if Int.emod f 2 = 0 then f else f + 1

/-- `f"{x:.1f}"` for `x` the probability times 100, probability `d.m / 10^d.e`:
round `d.m * 100 * 10 / 10^d.e` half-even, then split off the last digit. -/
def risk1f (d : Dec) : String :=
  let k : Int := roundHalfEvenFrac (d.m * 100 * 10) (Int.ofNat (10 ^ d.e))
  let sign := if k < 0 then "-" else ""
  sign ++ String.mk (writeNatChars (k.natAbs / 10)) ++ "." ++ String.mk (writeNatChars (k.natAbs % 10))

/-- What the manual-prediction branch renders: the Risk Score metric string,
the verdict (`some true` = "HEART DISEASE DETECTED", `some false` =
"NORMAL"), or a caught error message. -/
structure SingleOutcome where
  risk : Option String
  detected : Option Bool
  errorMsg : Option String
deriving DecidableEq, Repr

/-- Lines 132–146: `model.predict(input_df)[0]`, then
`model.predict_proba(input_df)[0][1] if hasattr(model, "predict_proba") else 0.0`,
then the metric `f"%{proba*100:.1f}"` and the verdict; any exception in the
`try` block is caught and shown as `Prediction Error: …`. -/
def runSingle (m : ModelObj) (df : DataFrame) : SingleOutcome :=
  match m.predict df with
  | .error e => ⟨none, none, some ("Prediction Error: " ++ e)⟩
  | .ok preds =>
    match preds.get? 0 with
    | none => ⟨none, none, some ("Prediction Error: " ++ "IndexError")⟩
    | some p =>
      if m.hasProba then
        match m.predictProba df with
        | .error e => ⟨none, none, some ("Prediction Error: " ++ e)⟩
        | .ok rows =>
          match (rows.get? 0).bind (fun r => r.get? 1) with
          | none => ⟨none, none, some ("Prediction Error: " ++ "IndexError")⟩
          | some pr =>
            ⟨some ("%" ++ risk1f pr), some (verdictOf p), none⟩
      else
        ⟨some ("%" ++ risk1f (Dec.mk 0 1)), some (verdictOf p), none⟩

/-! ### CSV text (model of `df.to_csv(index=False)` and `pd.read_csv`)

Cells print as pandas prints them (ints bare, floats with a dot, strings
verbatim — the app's data needs no quoting); `read_csv`'s per-column type
inference is modelled: an all-integer column reads back as ints, an
all-numeric column as floats, anything else as strings. -/

/-- Split a character list on a separator (`"a,b,,c"` gives 4 groups). -/
def splitOnChar (sep : Char) : List Char → List (List Char)
  | [] => [[]]
  | c :: rest =>
    match splitOnChar sep rest with
    | [] => [[]]
    | g :: gs => if c = sep then [] :: g :: gs else (c :: g) :: gs

def joinChar (sep : Char) : List (List Char) → List Char
  | [] => []
  | [p] => p
  | p :: q :: rest => p ++ sep :: joinChar sep (q :: rest)

/-- How a cell is rendered in CSV text. -/
def cellChars : Cell → List Char
  | .int n => writeIntChars n
  | .dec m e => decChars m e
  | .str s => s.data

/-- The lines of `df.to_csv(index=False)`: the header (no index column),
then one line per row. -/
def csvLines (df : DataFrame) : List (List Char) :=
  joinChar ',' (df.map (fun c => c.1.data)) ::
    (List.range (rowCount df)).map
      (fun i => joinChar ',' (df.map (fun c => cellChars (c.2.getD i (Cell.int 0)))))

/-- `df.to_csv(index=False)`: newline-joined lines with a trailing newline. -/
def toCsv (df : DataFrame) : String :=
  String.mk (joinChar '\n' (csvLines df) ++ ['\n'])

/-- `-?[0-9]+` (how `read_csv` recognizes an integer field). -/
def intLike (l : List Char) : Bool :=
  !(stripSign l).isEmpty && (stripSign l).all Char.isDigit

/-- `-?[0-9]+.[0-9]+` (a float field). -/
def decLike (l : List Char) : Bool :=
  match splitOnChar '.' (stripSign l) with
  | [a, b] => !a.isEmpty && !b.isEmpty && a.all Char.isDigit && b.all Char.isDigit
  | _ => false

def numberLike (l : List Char) : Bool := intLike l || decLike l

/-- Parse a float field into a `Cell.dec` (an int-shaped field in a float
column becomes `n.0`, mirroring the float64 conversion). -/
def parseDecCell (l : List Char) : Cell :=
  if intLike l then Cell.dec (10 * parseIntChars l) 1
  else
    match splitOnChar '.' (stripSign l) with
    | [a, b] =>
      Cell.dec ((if hasSign l then -1 else 1) * (parseNatChars (a ++ b) : Int)) b.length
    | _ => Cell.dec 0 1

/-- `read_csv`'s per-column dtype inference. -/
def inferColumn (raw : List (List Char)) : List Cell :=
  if raw.all intLike then raw.map (fun l => Cell.int (parseIntChars l))
  else if raw.all numberLike then raw.map parseDecCell
  else raw.map (fun l => Cell.str (String.mk l))

/-- `pd.read_csv` on CSV text: split lines (dropping the trailing empty line),
read the header as column names, fields by commas, then infer column types.
A ragged body or empty input is a parse error. -/
def readCsv (s : String) : Option DataFrame :=
  let lines0 := splitOnChar '\n' s.data
  let lines := if lines0.getLast? = some [] then lines0.dropLast else lines0
  match lines with
  | [] => none
  | header :: dataLines =>
    let names := splitOnChar ',' header
    let rows := dataLines.map (splitOnChar ',')
    if rows.all (fun r => r.length = names.length) then
      some ((List.range names.length).map (fun j =>
        (String.mk (names.getD j []), inferColumn (rows.map (fun r => r.getD j [])))))
    else none

/-! ### CSV-representable dataframes

`read_csv` output and well-formed model columns: names without separator
characters, columns of a single dtype, floats printed with a dot, strings
that do not look like numbers, booleans or NA markers (pandas would re-type
those on read). -/

def Cell.isIntCell : Cell → Bool
  | .int _ => true
  | _ => false

def Cell.isDecCell : Cell → Bool
  | .dec _ _ => true
  | _ => false

def Cell.isStrCell : Cell → Bool
  | .str _ => true
  | _ => false

def goodName (s : String) : Prop :=
  s.data ≠ [] ∧ ∀ c ∈ s.data, c ≠ ',' ∧ c ≠ '\n' ∧ c ≠ '\r' ∧ c ≠ '\"'

instance (s : String) : Decidable (goodName s) :=
  inferInstanceAs (Decidable (_ ∧ _))

def goodStrCell (s : String) : Prop :=
  goodName s ∧ intLike s.data = false ∧ decLike s.data = false
    ∧ s ∉ (["True", "False", "TRUE", "FALSE", "true", "false",
            "nan", "NaN", "NA", "null", "NULL"] : List String)

instance (s : String) : Decidable (goodStrCell s) :=
  inferInstanceAs (Decidable (_ ∧ _))

def goodCell : Cell → Prop
  | .int _ => True
  | .dec _ e => 1 ≤ e
  | .str s => goodStrCell s

instance : ∀ c : Cell, Decidable (goodCell c)
  | .int _ => .isTrue trivial
  | .dec _ e => inferInstanceAs (Decidable (1 ≤ e))
  | .str s => inferInstanceAs (Decidable (goodStrCell s))

/-- One pandas dtype per column. -/
def homogeneousCol (cells : List Cell) : Prop :=
  (∀ c ∈ cells, c.isIntCell = true) ∨ (∀ c ∈ cells, c.isDecCell = true)
    ∨ (∀ c ∈ cells, c.isStrCell = true)

instance (cells : List Cell) : Decidable (homogeneousCol cells) :=
  inferInstanceAs (Decidable (_ ∨ _ ∨ _))

/-- A dataframe whose CSV text parses back to itself: nonempty, rectangular,
separator-free nonempty names, homogeneous columns of well-formed cells. -/
def GoodDf (df : DataFrame) : Prop :=
  df ≠ [] ∧ Rectangular df
    ∧ ∀ col ∈ df, goodName col.1 ∧ homogeneousCol col.2 ∧ ∀ c ∈ col.2, goodCell c

instance (df : DataFrame) : Decidable (GoodDf df) :=
  inferInstanceAs (Decidable (_ ∧ _ ∧ _))

/-! ### Batch predictor (source lines 159–174) -/

/-- What the batch branch renders: the (possibly augmented) dataframe, the
caught error and hint texts, the success banner, and the download payload
`(csv text, file name, MIME type)` when reached. -/
structure BatchOutcome where
  df : DataFrame
  errorMsg : Option String
  hintMsg : Option String
  successShown : Bool
  download : Option (String × String × String)
deriving DecidableEq, Repr

/-- The `except` arm (lines 172–174): error text plus the fixed hint; the
dataframe is left as it was at the raise point, nothing further is rendered. -/
def batchErr (df : DataFrame) (e : String) : BatchOutcome :=
  ⟨df, some ("Error: " ++ e),
   some "Ensure CSV columns match the training data format (numeric/int).",
   false, none⟩

/-- The success tail (lines 167–171): banner, then the CSV download. -/
def batchFinish (df : DataFrame) : BatchOutcome :=
  ⟨df, none, none, true, some (toCsv df, "predictions.csv", "text/csv")⟩

/-- `numpy`'s `[:, 1]` on the probability matrix: second entry of every row,
`IndexError` if a row is too short. -/
def sliceCol1 (rows : List (List Dec)) : Option (List Dec) :=
  rows.mapM (fun r => r.get? 1)

/-- Lines 160–174: `preds = model.predict(df)`; `df['Prediction'] = preds`;
if the model has `predict_proba`, `df['Probability'] = model.predict_proba(df)[:, 1]`
— note the argument is the already-augmented `df` — then the success tail;
any exception is caught by `batchErr` with the dataframe in its state at the
raise point. -/
def runBatch (m : ModelObj) (df0 : DataFrame) : BatchOutcome :=
  match m.predict df0 with
  | .error e => batchErr df0 e
  | .ok preds =>
    match setCol? df0 "Prediction" preds with
    | none => batchErr df0 "ValueError"
    | some df1 =>
      if m.hasProba then
        match m.predictProba df1 with
        | .error e => batchErr df1 e
        | .ok rows =>
          match sliceCol1 rows with
          | none => batchErr df1 "IndexError"
          | some probs =>
            match setCol? df1 "Probability" (probs.map (fun d => Cell.dec d.m d.e)) with
            | none => batchErr df1 "ValueError"
            | some df2 => batchFinish df2
      else batchFinish df1

/-! ### Concrete objects used by counterexamples -/

/-- A model whose `predict` returns the string label `"Presence"`. -/
def presenceModel : ModelObj :=
  ⟨0, fun _ => .ok [Cell.str "Presence"], false, fun _ => .error "unused"⟩

/-- The world in which no candidate path exists at the first call, and from
the second call on the artifact is present and deserializes to a fixed
predictor object. -/
def flakyWorld : Nat → (String → Bool) × (String → Except String ModelObj) :=
  fun t =>
    if t = 0 then (fun _ => false, fun _ => .error "unreachable")
    else (fun p => p == "models/best_model.pkl",
          fun _ => .ok ⟨7, fun _ => .error "unused", false, fun _ => .error "unused"⟩)

/-- A model overwriting an existing `Prediction` column: refutes C3. -/
def overwriteModel : ModelObj :=
  ⟨0, fun _ => .ok [Cell.int 0], false, fun _ => .error "unused"⟩

/-! ### Resolver and loader theorems -/

/-- Claim C4: for every filename, `resolve_model_path` checks the four
candidate paths in the fixed order `models/<file>`, `src/<file>`, `<file>`,
`../models/<file>`, returns the first that exists, and returns `None` when
none exists; it never raises (it is a total function into `Option`). -/
theorem resolve_model_path_spec (ex : String → Bool) (fn : String) :
    possible_paths fn = ["models/" ++ fn, "src/" ++ fn, fn, "../models/" ++ fn]
    ∧ (ex ("models/" ++ fn) = true →
        resolve_model_path ex fn = some ("models/" ++ fn))
    ∧ (ex ("models/" ++ fn) = false → ex ("src/" ++ fn) = true →
        resolve_model_path ex fn = some ("src/" ++ fn))
    ∧ (ex ("models/" ++ fn) = false → ex ("src/" ++ fn) = false → ex fn = true →
        resolve_model_path ex fn = some fn)
    ∧ (ex ("models/" ++ fn) = false → ex ("src/" ++ fn) = false → ex fn = false →
        ex ("../models/" ++ fn) = true →
        resolve_model_path ex fn = some ("../models/" ++ fn))
    ∧ (ex ("models/" ++ fn) = false → ex ("src/" ++ fn) = false → ex fn = false →
        ex ("../models/" ++ fn) = false →
        resolve_model_path ex fn = none) := by
  refine ⟨rfl, ?_, ?_, ?_, ?_, ?_⟩ <;>
    · intros
      simp [resolve_model_path, possible_paths, List.find?, *]

/-- Witness for C4: a file present only at the second candidate resolves to
`src/best_model.pkl`. -/
theorem resolve_model_path_spec_witness :
    resolve_model_path (fun p => p == "src/best_model.pkl") "best_model.pkl" =
      some ("src/" ++ "best_model.pkl") :=
  (resolve_model_path_spec (fun p => p == "src/best_model.pkl")
    "best_model.pkl").2.2.1 (by decide) (by decide)

/-- Claim C8: when the artifact path resolves but deserialization fails, the
loader catches the failure, reports `Error loading model: <cause>`, and
returns the model-unavailable signal `none`; when no candidate path exists it
likewise returns `none`; in both cases `main`'s gate fires (an error is shown
and the rest of the interaction is disabled). -/
theorem load_model_failure_spec (ex : String → Bool)
    (deser : String → Except String ModelObj) :
    (∀ path e, resolve_model_path ex "best_model.pkl" = some path →
      deser path = .error e →
      load_model_attempt ex deser = (none, some ("Error loading model: " ++ e))
        ∧ (mainGate (load_model_attempt ex deser).1).isSome = true)
    ∧ (resolve_model_path ex "best_model.pkl" = none →
      load_model_attempt ex deser = (none, none)
        ∧ (mainGate (load_model_attempt ex deser).1).isSome = true) := by
  constructor
  · intro path e hres hde
    simp [load_model_attempt, hres, hde, mainGate]
  · intro hres
    simp [load_model_attempt, hres, mainGate]

/-- Witness for C8: a resolvable path whose artifact fails to deserialize is
reported and leaves the model unavailable. -/
theorem load_model_failure_spec_witness :
    load_model_attempt (fun p => p == "models/best_model.pkl")
        (fun _ => .error "invalid load key")
      = (none, some ("Error loading model: " ++ "invalid load key"))
    ∧ (mainGate (load_model_attempt (fun p => p == "models/best_model.pkl")
        (fun _ => .error "invalid load key")).1).isSome = true :=
  (load_model_failure_spec (fun p => p == "models/best_model.pkl")
      (fun _ => .error "invalid load key")).1
    ("models/" ++ "best_model.pkl") "invalid load key" (by decide) rfl

/-! ### Batch error-handling theorems -/

/-- Claim C7: when batch inference raises (e.g. a schema mismatch), the error
is caught — the outcome carries the error text and the fixed
check-column-alignment hint, the dataframe is exactly the uploaded one
(no partial result), and no download is offered; the flow returns an outcome
rather than crashing, so the upload widget stays usable. -/
theorem batch_schema_error_spec (m : ModelObj) (df0 : DataFrame) (e : String)
    (h : m.predict df0 = .error e) :
    runBatch m df0 =
      ⟨df0, some ("Error: " ++ e),
       some "Ensure CSV columns match the training data format (numeric/int).",
       false, none⟩ := by
  simp [runBatch, h, batchErr]

/-- Witness for C7: a model that rejects the uploaded columns leaves the
dataset unmodified and the download unavailable. -/
theorem batch_schema_error_spec_witness :
    runBatch
        ⟨0, fun _ => .error "columns are missing: Thallium", false,
          fun _ => .error "unused"⟩
        [("Age", [Cell.int 50])] =
      ⟨[("Age", [Cell.int 50])],
       some ("Error: " ++ "columns are missing: Thallium"),
       some "Ensure CSV columns match the training data format (numeric/int).",
       false, none⟩ :=
  batch_schema_error_spec
    ⟨0, fun _ => .error "columns are missing: Thallium", false,
      fun _ => .error "unused"⟩
    [("Age", [Cell.int 50])] "columns are missing: Thallium" rfl

/-! ### Single-record verdict (claim C2) -/

/-- Counterexample to claim C2 as stated: the claim says any predicted value
other than `1` yields the normal verdict, but line 140 also treats the string
`"Presence"` as positive: here the predicted value is not `1` (not even
Python-`==`-equal to `1`), yet the verdict is disease-detected. -/
theorem verdict_nonone_counterexample :
    (runSingle presenceModel [("Age", [Cell.int 50])]).detected = some true
    ∧ pyEq (Cell.str "Presence") (Cell.int 1) = false := by
  decide

/-- Claim C2 (amended): when single-record prediction succeeds with first
predicted value `p`, the verdict shown is disease-detected exactly when `p`
equals `1` under Python equality (so also `1.0`) or `p` is the string
`"Presence"`; every other value yields the normal verdict.  (If the
probability step fails afterwards, no verdict is shown at all.) -/
theorem verdict_spec (m : ModelObj) (df : DataFrame) (preds : List Cell)
    (p : Cell) (h1 : m.predict df = .ok preds) (h2 : preds.get? 0 = some p) :
    ((runSingle m df).detected = none
      ∨ (runSingle m df).detected = some (verdictOf p))
    ∧ (verdictOf p = true ↔
        pyEq p (Cell.int 1) = true ∨ p = Cell.str "Presence") := by
  constructor
  · simp only [runSingle, h1, h2]
    cases hp : m.hasProba
    · simp
    · cases hq : m.predictProba df
      · simp
      · rename_i rows
        cases hb : rows[0]?.bind (fun a => a[1]?) <;> simp [hb]
  · constructor
    · intro hv
      rcases Bool.or_eq_true_iff.1 hv with h | h
      · exact Or.inl h
      · refine Or.inr ?_
        cases p with
        | int n => simp [pyEq, Cell.numVal?] at h
        | dec m e => simp [pyEq, Cell.numVal?] at h
        | str s =>
          simp only [pyEq, Cell.numVal?] at h
          exact of_decide_eq_true h
    · intro hv
      rcases hv with h | h
      · exact Bool.or_eq_true_iff.2 (Or.inl h)
      · subst h
        decide

/-- Witness for C2 (amended): predicted class `1` yields the detected
verdict. -/
theorem verdict_spec_witness :
    ((runSingle ⟨0, fun _ => .ok [Cell.int 1], false, fun _ => .error "unused"⟩
        [("Age", [Cell.int 50])]).detected = none
      ∨ (runSingle ⟨0, fun _ => .ok [Cell.int 1], false, fun _ => .error "unused"⟩
        [("Age", [Cell.int 50])]).detected = some (verdictOf (Cell.int 1)))
    ∧ (verdictOf (Cell.int 1) = true ↔
        pyEq (Cell.int 1) (Cell.int 1) = true ∨ Cell.int 1 = Cell.str "Presence") :=
  verdict_spec ⟨0, fun _ => .ok [Cell.int 1], false, fun _ => .error "unused"⟩
    [("Age", [Cell.int 50])] [Cell.int 1] (Cell.int 1) rfl rfl

/-! ### Loader cache (claim C6) -/

theorem slotAfter_pos (raw : Nat → Option ModelObj) (n : Nat) :
    slotAfter raw (n + 1) = some (raw 0) := by
  induction n with
  | zero => rfl
  | succ k ih => rw [slotAfter, ih]

theorem loadCount_pos (raw : Nat → Option ModelObj) (n : Nat) :
    loadCount raw (n + 1) = 1 := by
  induction n with
  | zero => rfl
  | succ k ih =>
    rw [loadCount, ih, slotAfter_pos]
    rfl

/-- Counterexample to claim C6 as stated: the claim says the cache is
populated on the first *successful* load, after which calls return the cached
predictor instance.  But `st.cache_resource` stores whatever `load_model`
returns — including `None`.  Here the first call finds no artifact and fails
(returns `None`), yet the slot is populated (with `None`); at the second call
the artifact is present and a load would succeed, but the cached `None` is
returned without re-reading anything. -/
theorem load_model_cache_counterexample :
    rawLoadOf flakyWorld 0 = none
    ∧ rawLoadOf flakyWorld 1 =
        some ⟨7, fun _ => .error "unused", false, fun _ => .error "unused"⟩
    ∧ slotAfter (rawLoadOf flakyWorld) 1 = some none
    ∧ callResult (rawLoadOf flakyWorld) 1 = none
    ∧ loadCount (rawLoadOf flakyWorld) 2 = 1 :=
  ⟨rfl, rfl, rfl, rfl, rfl⟩

/-- Claim C6 (amended): `load_model` is a single-slot, lazily initialized,
never-invalidated cache, but the slot is populated by the *first call*
whether or not the load succeeds: a failed first load caches `None`, and
every later call returns the first call's result — the identical instance
when it succeeded — with the body (file read / deserialization) running
exactly once. -/
theorem load_model_cache_spec
    (world : Nat → (String → Bool) × (String → Except String ModelObj))
    (n : Nat) :
    slotAfter (rawLoadOf world) 0 = none
    ∧ callResult (rawLoadOf world) n = rawLoadOf world 0
    ∧ (1 ≤ n → slotAfter (rawLoadOf world) n = some (rawLoadOf world 0)
        ∧ loadCount (rawLoadOf world) n = 1) := by
  refine ⟨rfl, ?_, ?_⟩
  · cases n with
    | zero => rfl
    | succ k => simp [callResult, slotAfter_pos]
  · intro hn
    cases n with
    | zero => omega
    | succ k => exact ⟨slotAfter_pos _ k, loadCount_pos _ k⟩

/-- Witness for C6 (amended): two calls in an unchanging world with a
loadable artifact return the identical instance after a single load. -/
theorem load_model_cache_spec_witness :
    slotAfter (rawLoadOf (fun _ => flakyWorld 1)) 0 = none
    ∧ callResult (rawLoadOf (fun _ => flakyWorld 1)) 2 =
        rawLoadOf (fun _ => flakyWorld 1) 0
    ∧ (1 ≤ 2 → slotAfter (rawLoadOf (fun _ => flakyWorld 1)) 2 =
          some (rawLoadOf (fun _ => flakyWorld 1) 0)
        ∧ loadCount (rawLoadOf (fun _ => flakyWorld 1)) 2 = 1) :=
  load_model_cache_spec (fun _ => flakyWorld 1) 2

/-! ### Manual encoder (claim C1) -/

theorem cp_map_valid (s : String)
    (h : s = "Typical Angina (1)" ∨ s = "Atypical Angina (2)"
      ∨ s = "Non-Anginal Pain (3)" ∨ s = "Asymptomatic (4)") :
    cp_map s = some (specCpVal s) := by
  rcases h with rfl | rfl | rfl | rfl <;> rfl

theorem ecg_map_valid (s : String)
    (h : s = "Normal (0)" ∨ s = "ST-T Abnormality (1)" ∨ s = "LV Hypertrophy (2)") :
    ecg_map s = some (specEcgVal s) := by
  rcases h with rfl | rfl | rfl <;> rfl

theorem slope_map_valid (s : String)
    (h : s = "Upsloping (1)" ∨ s = "Flat (2)" ∨ s = "Downsloping (3)") :
    slope_map s = some (specSlopeVal s) := by
  rcases h with rfl | rfl | rfl <;> rfl

theorem thal_map_valid (s : String)
    (h : s = "Normal (3)" ∨ s = "Fixed Defect (6)" ∨ s = "Reversible Defect (7)") :
    thal_map s = some (specThalVal s) := by
  rcases h with rfl | rfl | rfl <;> rfl

theorem fbs_val_valid (s : String) (h : s = "False (0)" ∨ s = "True (1)") :
    (if strContains s "True" then (1 : Int) else 0) = specFbsVal s := by
  rcases h with rfl | rfl <;> decide

theorem exang_val_valid (s : String) (h : s = "No (0)" ∨ s = "Yes (1)") :
    (if strContains s "Yes" then (1 : Int) else 0) = specExangVal s := by
  rcases h with rfl | rfl <;> decide

/-- Claim C1: for every valid combination of the 13 form selections the
encoder produces a single-row record with exactly the 13 documented field
names in the documented order, each categorical label mapped to the
documented code (the `spec…Val` tables follow the spec's §3 domain table) and
every numeric field passed through unchanged. -/
theorem encodeManual_spec (age : Int) (sex_disp cp_disp : String)
    (trestbps chol : Int) (fbs_disp ecg_disp : String) (thalach : Int)
    (exang_disp : String) (oldpeak : Cell) (slope_disp : String) (ca : Int)
    (thal_disp : String)
    (hsex : sex_disp = "Male" ∨ sex_disp = "Female")
    (hcp : cp_disp = "Typical Angina (1)" ∨ cp_disp = "Atypical Angina (2)"
      ∨ cp_disp = "Non-Anginal Pain (3)" ∨ cp_disp = "Asymptomatic (4)")
    (hfbs : fbs_disp = "False (0)" ∨ fbs_disp = "True (1)")
    (hecg : ecg_disp = "Normal (0)" ∨ ecg_disp = "ST-T Abnormality (1)"
      ∨ ecg_disp = "LV Hypertrophy (2)")
    (hexang : exang_disp = "No (0)" ∨ exang_disp = "Yes (1)")
    (hslope : slope_disp = "Upsloping (1)" ∨ slope_disp = "Flat (2)"
      ∨ slope_disp = "Downsloping (3)")
    (hthal : thal_disp = "Normal (3)" ∨ thal_disp = "Fixed Defect (6)"
      ∨ thal_disp = "Reversible Defect (7)") :
    encodeManual age sex_disp cp_disp trestbps chol fbs_disp ecg_disp thalach
        exang_disp oldpeak slope_disp ca thal_disp
      = some (specRecord age sex_disp cp_disp trestbps chol fbs_disp ecg_disp
          thalach exang_disp oldpeak slope_disp ca thal_disp)
    ∧ colNames (specRecord age sex_disp cp_disp trestbps chol fbs_disp
        ecg_disp thalach exang_disp oldpeak slope_disp ca thal_disp)
      = ["Age", "Sex", "Chest pain type", "BP", "Cholesterol", "FBS over 120",
         "EKG results", "Max HR", "Exercise angina", "ST depression",
         "Slope of ST", "Number of vessels fluro", "Thallium"] := by
  refine ⟨?_, rfl⟩
  rw [encodeManual, cp_map_valid _ hcp, ecg_map_valid _ hecg,
    slope_map_valid _ hslope, thal_map_valid _ hthal]
  simp only [Option.bind_eq_bind, Option.some_bind, Option.pure_def]
  rw [fbs_val_valid _ hfbs, exang_val_valid _ hexang]
  rfl

/-- Witness for C1: the spec's end-to-end scenario (Age 50, Male, Typical
Angina, BP 120, Chol 200, FBS False, EKG Normal, Max HR 150, no exercise
angina, ST depression 0.0, upsloping slope, 0 vessels, normal thallium). -/
theorem encodeManual_spec_witness :
    encodeManual 50 "Male" "Typical Angina (1)" 120 200 "False (0)" "Normal (0)"
        150 "No (0)" (Cell.dec 0 1) "Upsloping (1)" 0 "Normal (3)"
      = some (specRecord 50 "Male" "Typical Angina (1)" 120 200 "False (0)"
          "Normal (0)" 150 "No (0)" (Cell.dec 0 1) "Upsloping (1)" 0 "Normal (3)")
    ∧ colNames (specRecord 50 "Male" "Typical Angina (1)" 120 200 "False (0)"
        "Normal (0)" 150 "No (0)" (Cell.dec 0 1) "Upsloping (1)" 0 "Normal (3)")
      = ["Age", "Sex", "Chest pain type", "BP", "Cholesterol", "FBS over 120",
         "EKG results", "Max HR", "Exercise angina", "ST depression",
         "Slope of ST", "Number of vessels fluro", "Thallium"] :=
  encodeManual_spec 50 "Male" "Typical Angina (1)" 120 200 "False (0)"
    "Normal (0)" 150 "No (0)" (Cell.dec 0 1) "Upsloping (1)" 0 "Normal (3)"
    (Or.inl rfl) (Or.inl rfl) (Or.inl rfl) (Or.inl rfl) (Or.inl rfl)
    (Or.inl rfl) (Or.inl rfl)

/-! ### Single-record probability and risk display (claim C5) -/

/-- Claim C5: when the model exposes `predict_proba` the reported probability
is entry 1 of row 0 of the probability matrix; when it does not, the
probability is `0.0` and the call still succeeds; in both cases the displayed
risk is the probability times 100 rendered with one decimal place
(the `%`-prefixed metric string). -/
theorem single_proba_spec (m : ModelObj) (df : DataFrame) (preds : List Cell)
    (p : Cell) (h1 : m.predict df = .ok preds) (h2 : preds.get? 0 = some p) :
    (m.hasProba = false →
      runSingle m df =
        ⟨some ("%" ++ risk1f (Dec.mk 0 1)), some (verdictOf p), none⟩)
    ∧ (∀ rows pr, m.hasProba = true → m.predictProba df = .ok rows →
        rows[0]?.bind (fun a => a[1]?) = some pr →
        runSingle m df =
          ⟨some ("%" ++ risk1f pr), some (verdictOf p), none⟩) := by
  constructor
  · intro hp
    simp only [runSingle, h1, h2, hp]
    simp
  · intro rows pr hp hq hb
    simp only [runSingle, h1, h2, hp, hq, if_true]
    simp [hb]

/-- Witness for C5: a model returning the binary probability vector
`[0.25, 0.75]` reports probability `0.75`, displayed as risk `%75.0`. -/
theorem single_proba_spec_witness :
    runSingle
        ⟨0, fun _ => .ok [Cell.int 1], true,
          fun _ => .ok [[Dec.mk 25 2, Dec.mk 75 2]]⟩
        [("Age", [Cell.int 50])]
      = ⟨some ("%" ++ risk1f (Dec.mk 75 2)),
         some (verdictOf (Cell.int 1)), none⟩ :=
  (single_proba_spec
      ⟨0, fun _ => .ok [Cell.int 1], true,
        fun _ => .ok [[Dec.mk 25 2, Dec.mk 75 2]]⟩
      [("Age", [Cell.int 50])] [Cell.int 1] (Cell.int 1) rfl rfl).2
    [[Dec.mk 25 2, Dec.mk 75 2]] (Dec.mk 75 2) rfl rfl rfl

/-- The fallback risk string is literally `%0.0`, a probability of 0.75 is
rendered `%75.0`, and 0.285 rounds to `28.5`: the formatting model evaluated
on concrete values. -/
theorem risk1f_eval :
    "%" ++ risk1f (Dec.mk 0 1) = "%0.0"
    ∧ "%" ++ risk1f (Dec.mk 75 2) = "%75.0"
    ∧ risk1f (Dec.mk 285 3) = "28.5" := by
  refine ⟨?_, ?_, ?_⟩ <;> decide

/-! ### Batch success shape (claims C3 and C10) -/

theorem rowCount_append (df : DataFrame) (l : DataFrame) (h : df ≠ []) :
    rowCount (df ++ l) = rowCount df := by
  cases df with
  | nil => exact absurd rfl h
  | cons c t => rfl

/-- `setCol?` on a nonempty frame without the column: append at the end. -/
theorem setCol?_append (df : DataFrame) (nm : String) (vals : List Cell)
    (hne : df ≠ []) (hnm : nm ∉ colNames df)
    (hlen : vals.length = rowCount df) :
    setCol? df nm vals = some (df ++ [(nm, vals)]) := by
  have hni : ¬ df.isEmpty := by
    cases df with
    | nil => exact absurd rfl hne
    | cons c t => simp
  have hc : (colNames df).contains nm = false := by simpa using hnm
  simp [setCol?, hni, hlen, hc]
  intro hm
  exact absurd hm hnm

/-- Counterexample to claim C3 as stated: on an input that already has a
`Prediction` column, pandas column assignment overwrites it in place, so a
successful batch run alters an original column and adds no new column —
the claim promised originals preserved plus exactly one new column. -/
theorem batch_overwrite_counterexample :
    (runBatch overwriteModel [("Prediction", [Cell.int 5])]).successShown = true
    ∧ (runBatch overwriteModel [("Prediction", [Cell.int 5])]).download.isSome = true
    ∧ (runBatch overwriteModel [("Prediction", [Cell.int 5])]).df
        = [("Prediction", [Cell.int 0])]
    ∧ ("Prediction", [Cell.int 5]) ∈ ([("Prediction", [Cell.int 5])] : DataFrame)
    ∧ ("Prediction", [Cell.int 5]) ∉ (runBatch overwriteModel
        [("Prediction", [Cell.int 5])]).df
    ∧ (runBatch overwriteModel [("Prediction", [Cell.int 5])]).df.length
        = ([("Prediction", [Cell.int 5])] : DataFrame).length := by
  decide

/-- Claim C3 (amended): for every nonempty input dataset without columns
already named `Prediction` or `Probability` on which batch prediction
succeeds, the output has the same row count, all original columns preserved
unchanged (the output is literally the input plus appended columns), and
exactly two new columns `Prediction`, `Probability` when the model supports
probability estimation, exactly one new column `Prediction` otherwise.
(If the input already carries such a column it is overwritten in place
instead of added.) -/
theorem batch_shape_spec (m : ModelObj) (df0 : DataFrame) (preds : List Cell)
    (hne : df0 ≠ [])
    (hP : "Prediction" ∉ colNames df0)
    (hPr : "Probability" ∉ colNames df0)
    (h1 : m.predict df0 = .ok preds) (hlen : preds.length = rowCount df0) :
    (m.hasProba = false →
      runBatch m df0 = batchFinish (df0 ++ [("Prediction", preds)])
      ∧ rowCount (df0 ++ [("Prediction", preds)]) = rowCount df0
      ∧ colNames (df0 ++ [("Prediction", preds)])
          = colNames df0 ++ ["Prediction"])
    ∧ (∀ rows probs, m.hasProba = true →
        m.predictProba (df0 ++ [("Prediction", preds)]) = .ok rows →
        sliceCol1 rows = some probs → probs.length = rowCount df0 →
        runBatch m df0 = batchFinish (df0 ++ [("Prediction", preds),
          ("Probability", probs.map (fun d => Cell.dec d.m d.e))])
        ∧ rowCount (df0 ++ [("Prediction", preds),
            ("Probability", probs.map (fun d => Cell.dec d.m d.e))])
          = rowCount df0
        ∧ colNames (df0 ++ [("Prediction", preds),
            ("Probability", probs.map (fun d => Cell.dec d.m d.e))])
          = colNames df0 ++ ["Prediction", "Probability"]) := by
  have hset1 : setCol? df0 "Prediction" preds = some (df0 ++ [("Prediction", preds)]) :=
    setCol?_append df0 "Prediction" preds hne hP hlen
  constructor
  · intro hp
    refine ⟨?_, rowCount_append df0 _ hne, by simp [colNames]⟩
    simp [runBatch, h1, hset1, hp]
  · intro rows probs hp hq hs hplen
    have hne1 : df0 ++ [("Prediction", preds)] ≠ [] := by
      cases df0 with
      | nil => exact absurd rfl hne
      | cons c t => simp
    have hnm1 : "Probability" ∉ colNames (df0 ++ [("Prediction", preds)]) := by
      simp only [colNames, List.map_append, List.mem_append]
      rintro (hm | hm)
      · exact hPr hm
      · simp at hm
    have hlen1 : (probs.map (fun d => Cell.dec d.m d.e)).length
        = rowCount (df0 ++ [("Prediction", preds)]) := by
      rw [List.length_map, rowCount_append df0 _ hne, hplen]
    have hset2 : setCol? (df0 ++ [("Prediction", preds)]) "Probability"
        (probs.map (fun d => Cell.dec d.m d.e))
        = some ((df0 ++ [("Prediction", preds)]) ++
            [("Probability", probs.map (fun d => Cell.dec d.m d.e))]) :=
      setCol?_append _ _ _ hne1 hnm1 hlen1
    refine ⟨?_, rowCount_append df0 _ hne, by simp [colNames]⟩
    have : df0 ++ [("Prediction", preds), ("Probability", probs.map (fun d => Cell.dec d.m d.e))]
        = (df0 ++ [("Prediction", preds)]) ++
            [("Probability", probs.map (fun d => Cell.dec d.m d.e))] := by
      simp
    rw [this]
    simp [runBatch, h1, hset1, hp, hq, hs, hset2]

/-- Witness for C3 (amended): a two-row upload with a probability-capable
model gains exactly the `Prediction` and `Probability` columns. -/
theorem batch_shape_spec_witness :
    runBatch
        ⟨0, fun _ => .ok [Cell.int 1, Cell.int 0], true,
          fun _ => .ok [[Dec.mk 3 1, Dec.mk 7 1], [Dec.mk 9 1, Dec.mk 1 1]]⟩
        [("Age", [Cell.int 50, Cell.int 60])]
      = batchFinish ([("Age", [Cell.int 50, Cell.int 60])] ++
          [("Prediction", [Cell.int 1, Cell.int 0]),
           ("Probability", [Dec.mk 7 1, Dec.mk 1 1].map (fun d => Cell.dec d.m d.e))])
    ∧ rowCount ([("Age", [Cell.int 50, Cell.int 60])] ++
        [("Prediction", [Cell.int 1, Cell.int 0]),
         ("Probability", [Dec.mk 7 1, Dec.mk 1 1].map (fun d => Cell.dec d.m d.e))])
      = rowCount [("Age", [Cell.int 50, Cell.int 60])]
    ∧ colNames ([("Age", [Cell.int 50, Cell.int 60])] ++
        [("Prediction", [Cell.int 1, Cell.int 0]),
         ("Probability", [Dec.mk 7 1, Dec.mk 1 1].map (fun d => Cell.dec d.m d.e))])
      = colNames [("Age", [Cell.int 50, Cell.int 60])] ++ ["Prediction", "Probability"] :=
  (batch_shape_spec
      ⟨0, fun _ => .ok [Cell.int 1, Cell.int 0], true,
        fun _ => .ok [[Dec.mk 3 1, Dec.mk 7 1], [Dec.mk 9 1, Dec.mk 1 1]]⟩
      [("Age", [Cell.int 50, Cell.int 60])] [Cell.int 1, Cell.int 0]
      (by decide) (by decide) (by decide) rfl (by decide)).2
    [[Dec.mk 3 1, Dec.mk 7 1], [Dec.mk 9 1, Dec.mk 1 1]] [Dec.mk 7 1, Dec.mk 1 1]
    rfl rfl (by decide) (by decide)

/-- Claim C10: in the batch flow `predict_proba` is invoked only after the
`Prediction` column has been appended, so `predict` sees the uploaded columns
while `predict_proba` sees them plus `Prediction`; a `predict_proba` failure
at that point leaves the dataframe already augmented with `Prediction`. -/
theorem batch_proba_ordering_spec (m : ModelObj) (df0 : DataFrame)
    (preds : List Cell) (e : String) (hne : df0 ≠ [])
    (hP : "Prediction" ∉ colNames df0)
    (h1 : m.predict df0 = .ok preds) (hlen : preds.length = rowCount df0)
    (hp : m.hasProba = true)
    (he : m.predictProba (df0 ++ [("Prediction", preds)]) = .error e) :
    runBatch m df0 =
      ⟨df0 ++ [("Prediction", preds)], some ("Error: " ++ e),
       some "Ensure CSV columns match the training data format (numeric/int).",
       false, none⟩
    ∧ colNames (df0 ++ [("Prediction", preds)])
        = colNames df0 ++ ["Prediction"] := by
  have hset1 : setCol? df0 "Prediction" preds = some (df0 ++ [("Prediction", preds)]) :=
    setCol?_append df0 "Prediction" preds hne hP hlen
  refine ⟨?_, by simp [colNames]⟩
  simp [runBatch, h1, hset1, hp, he, batchErr]

/-- Witness for C10: a model whose `predict_proba` rejects any frame carrying
a `Prediction` column errors in the batch flow — demonstrating that the call
receives the already-augmented frame — and the outcome's frame retains the
`Prediction` column. -/
theorem batch_proba_ordering_spec_witness :
    runBatch
        ⟨0, fun _ => .ok [Cell.int 1], true,
          fun d => if (colNames d).contains "Prediction"
            then .error "unexpected column Prediction" else .ok [[Dec.mk 5 1, Dec.mk 5 1]]⟩
        [("Age", [Cell.int 50])]
      = ⟨[("Age", [Cell.int 50])] ++ [("Prediction", [Cell.int 1])],
         some ("Error: " ++ "unexpected column Prediction"),
         some "Ensure CSV columns match the training data format (numeric/int).",
         false, none⟩
    ∧ colNames ([("Age", [Cell.int 50])] ++ [("Prediction", [Cell.int 1])])
        = colNames [("Age", [Cell.int 50])] ++ ["Prediction"] :=
  batch_proba_ordering_spec
    ⟨0, fun _ => .ok [Cell.int 1], true,
      fun d => if (colNames d).contains "Prediction"
        then .error "unexpected column Prediction" else .ok [[Dec.mk 5 1, Dec.mk 5 1]]⟩
    [("Age", [Cell.int 50])] [Cell.int 1] "unexpected column Prediction"
    (by decide) (by decide) rfl (by decide) rfl rfl

/-! ### Numeral round-trip lemmas (towards claim C9) -/

theorem natDigitsRev_eq (f : Nat) : ∀ n : Nat, n ≤ f →
    natDigitsRev f n = Nat.digits 10 n := by
  induction f with
  | zero =>
    intro n hn
    interval_cases n
    simp [natDigitsRev]
  | succ k ih =>
    intro n hn
    by_cases h0 : n = 0
    · subst h0
      simp [natDigitsRev]
    · rw [natDigitsRev, if_neg h0, Nat.digits_def' (by norm_num) (Nat.pos_of_ne_zero h0)]
      have hlt : n / 10 ≤ k := by
        have : n / 10 < n := Nat.div_lt_self (Nat.pos_of_ne_zero h0) (by norm_num)
        omega
      rw [ih (n / 10) hlt]

theorem digitVal_digitChar : ∀ d < 10, digitVal (digitChar d) = d := by decide

theorem isDigit_digitChar : ∀ d < 10, (digitChar d).isDigit = true := by decide

theorem writeNatChars_all_digit (n : Nat) :
    ∀ c ∈ writeNatChars n, c.isDigit = true := by
  intro c hc
  by_cases h0 : n = 0
  · subst h0
    simp [writeNatChars] at hc
    subst hc
    decide
  · rw [writeNatChars, if_neg h0, natDigitsRev_eq n n le_rfl] at hc
    rw [List.mem_reverse, List.mem_map] at hc
    obtain ⟨d, hd, rfl⟩ := hc
    exact isDigit_digitChar d (Nat.digits_lt_base (by norm_num) hd)

theorem writeNatChars_ne_nil (n : Nat) : writeNatChars n ≠ [] := by
  by_cases h0 : n = 0
  · subst h0
    simp [writeNatChars]
  · rw [writeNatChars, if_neg h0]
    simp only [ne_eq, List.reverse_eq_nil_iff, List.map_eq_nil_iff]
    rw [natDigitsRev_eq n n le_rfl]
    exact Nat.digits_ne_nil_iff_ne_zero.2 h0

theorem parseNatChars_writeNatChars (n : Nat) :
    parseNatChars (writeNatChars n) = n := by
  by_cases h0 : n = 0
  · subst h0
    rfl
  · rw [writeNatChars, if_neg h0, natDigitsRev_eq n n le_rfl, parseNatChars]
    rw [List.map_reverse, List.reverse_reverse, List.map_map]
    have hm : (Nat.digits 10 n).map (digitVal ∘ digitChar) = (Nat.digits 10 n).map id :=
      List.map_congr_left
        (fun d hd => digitVal_digitChar d (Nat.digits_lt_base (by norm_num) hd))
    rw [hm, List.map_id, Nat.ofDigits_digits]

theorem ofDigits_replicate_zero (k : Nat) :
    Nat.ofDigits 10 (List.replicate k 0) = 0 := by
  induction k with
  | zero => rfl
  | succ j ih => simp [List.replicate_succ, Nat.ofDigits_cons, ih]

theorem parseNatChars_zeros (k : Nat) (l : List Char) :
    parseNatChars (List.replicate k '0' ++ l) = parseNatChars l := by
  unfold parseNatChars
  rw [List.map_append, List.reverse_append]
  have hz : (List.replicate k '0').map digitVal = List.replicate k 0 := by
    rw [List.map_replicate]
    rfl
  rw [hz, List.reverse_replicate, Nat.ofDigits_append, ofDigits_replicate_zero]
  simp

/-! ### Integer field round-trip -/

theorem hasSign_all_digit (l : List Char) (h : ∀ c ∈ l, c.isDigit = true) :
    hasSign l = false := by
  cases l with
  | nil => rfl
  | cons c t =>
    have hd := h c (List.mem_cons_self c t)
    simp only [hasSign, List.head?_cons, Option.some.injEq, decide_eq_false_iff_not]
    intro hc
    subst hc
    simp at hd

theorem intLike_writeIntChars (n : Int) : intLike (writeIntChars n) = true := by
  unfold writeIntChars intLike
  by_cases hn : n < 0
  · rw [if_pos hn]
    have hs : hasSign ('-' :: writeNatChars n.natAbs) = true := rfl
    simp only [List.singleton_append, stripSign, hs, if_true, List.tail_cons]
    rw [Bool.and_eq_true, List.all_eq_true]
    refine ⟨by simpa using writeNatChars_ne_nil n.natAbs, writeNatChars_all_digit n.natAbs⟩
  · rw [if_neg hn]
    have hs : hasSign ([] ++ writeNatChars n.natAbs) = false := by
      simpa using hasSign_all_digit _ (writeNatChars_all_digit n.natAbs)
    simp only [List.nil_append] at hs ⊢
    rw [stripSign, hs]
    simp only [Bool.false_eq_true, if_false, Bool.and_eq_true, List.all_eq_true]
    refine ⟨by simpa using writeNatChars_ne_nil n.natAbs, writeNatChars_all_digit n.natAbs⟩

theorem parseIntChars_writeIntChars (n : Int) :
    parseIntChars (writeIntChars n) = n := by
  unfold writeIntChars parseIntChars
  by_cases hn : n < 0
  · rw [if_pos hn]
    have hs : hasSign ('-' :: writeNatChars n.natAbs) = true := rfl
    simp only [List.singleton_append, hs, if_true, List.tail_cons]
    rw [parseNatChars_writeNatChars]
    omega
  · rw [if_neg hn]
    have hs : hasSign ([] ++ writeNatChars n.natAbs) = false := by
      simpa using hasSign_all_digit _ (writeNatChars_all_digit n.natAbs)
    simp only [List.nil_append] at hs ⊢
    rw [hs]
    simp only [Bool.false_eq_true, if_false]
    rw [parseNatChars_writeNatChars]
    omega

/-! ### Splitting on a separator -/

theorem splitOnChar_ne_nil (sep : Char) (l : List Char) :
    splitOnChar sep l ≠ [] := by
  cases l with
  | nil => simp [splitOnChar]
  | cons c t =>
    rw [splitOnChar]
    rcases h : splitOnChar sep t with _ | ⟨g, gs⟩
    · simp
    · by_cases hc : c = sep <;> simp [hc]

theorem splitOnChar_of_not_mem (sep : Char) (l : List Char) (h : sep ∉ l) :
    splitOnChar sep l = [l] := by
  induction l with
  | nil => rfl
  | cons c t ih =>
    have hct : sep ∉ t := fun hm => h (List.mem_cons_of_mem c hm)
    have hc : c ≠ sep := fun he => h (he ▸ List.mem_cons_self c t)
    rw [splitOnChar, ih hct]
    simp [hc]

theorem splitOnChar_append_cons (sep : Char) (a b : List Char) (h : sep ∉ a) :
    splitOnChar sep (a ++ sep :: b) = a :: splitOnChar sep b := by
  induction a with
  | nil =>
    rw [List.nil_append, splitOnChar]
    rcases hs : splitOnChar sep b with _ | ⟨g, gs⟩
    · exact absurd hs (splitOnChar_ne_nil sep b)
    · simp
  | cons c t ih =>
    have hct : sep ∉ t := fun hm => h (List.mem_cons_of_mem c hm)
    have hc : c ≠ sep := fun he => h (he ▸ List.mem_cons_self c t)
    rw [List.cons_append, splitOnChar, ih hct]
    simp [hc]

theorem splitOnChar_append_sep (sep : Char) (l : List Char) :
    splitOnChar sep (l ++ [sep]) = splitOnChar sep l ++ [[]] := by
  induction l with
  | nil => simp [splitOnChar]
  | cons c t ih =>
    rw [List.cons_append, splitOnChar, ih]
    rcases hs : splitOnChar sep t with _ | ⟨g, gs⟩
    · exact absurd hs (splitOnChar_ne_nil sep t)
    · rw [splitOnChar, hs]
      by_cases hc : c = sep <;> simp [hc]

/-- Members of a `joinChar` are the separator or members of a part. -/
theorem mem_joinChar (sep : Char) (parts : List (List Char)) (x : Char)
    (hx : x ∈ joinChar sep parts) : x = sep ∨ ∃ p ∈ parts, x ∈ p := by
  induction parts with
  | nil => simp [joinChar] at hx
  | cons p rest ih =>
    cases rest with
    | nil =>
      exact Or.inr ⟨p, List.mem_cons_self p [], by simpa [joinChar] using hx⟩
    | cons q rest2 =>
      rw [joinChar] at hx
      rcases List.mem_append.1 hx with hm | hm
      · exact Or.inr ⟨p, List.mem_cons_self _ _, hm⟩
      · rcases List.mem_cons.1 hm with he | hm2
        · exact Or.inl he
        · rcases ih hm2 with he | ⟨r, hr, hxr⟩
          · exact Or.inl he
          · exact Or.inr ⟨r, List.mem_cons_of_mem p hr, hxr⟩

/-- `splitOnChar` inverts `joinChar` when no part contains the separator. -/
theorem splitOnChar_joinChar (sep : Char) (parts : List (List Char))
    (hne : parts ≠ []) (h : ∀ p ∈ parts, sep ∉ p) :
    splitOnChar sep (joinChar sep parts) = parts := by
  induction parts with
  | nil => exact absurd rfl hne
  | cons p rest ih =>
    cases rest with
    | nil => exact splitOnChar_of_not_mem sep p (h p (List.mem_cons_self p []))
    | cons q rest2 =>
      rw [joinChar, splitOnChar_append_cons sep p _ (h p (List.mem_cons_self _ _))]
      rw [ih (by simp) (fun r hr => h r (List.mem_cons_of_mem p hr))]

/-! ### Float field round-trip -/

/-- Structure of a printed float with `1 ≤ e`: optional sign, then an
all-digit block of length at least `e + 1` parsing to `|m|`, with a dot
before the last `e` digits. -/
theorem decChars_eq (m : Int) (e : Nat) (he : 1 ≤ e) :
    ∃ pad : List Char,
      decChars m e = (if m < 0 then ['-'] else []) ++
          (pad.take (pad.length - e) ++ '.' :: pad.drop (pad.length - e))
      ∧ (∀ c ∈ pad, c.isDigit = true)
      ∧ e + 1 ≤ pad.length
      ∧ parseNatChars pad = m.natAbs := by
  have he0 : e ≠ 0 := by omega
  have hmax : max e 1 = e := Nat.max_eq_left he
  refine ⟨if (writeNatChars m.natAbs).length < e + 1
      then List.replicate (e + 1 - (writeNatChars m.natAbs).length) '0'
        ++ writeNatChars m.natAbs
      else writeNatChars m.natAbs, ?_, ?_, ?_, ?_⟩
  · rw [decChars]
    simp only [hmax, he0, if_false, List.append_assoc]
  · intro c hc
    split at hc
    · rcases List.mem_append.1 hc with hm | hm
      · rw [List.eq_of_mem_replicate hm]
        decide
      · exact writeNatChars_all_digit _ c hm
    · exact writeNatChars_all_digit _ c hc
  · split
    · rename_i hlt
      rw [List.length_append, List.length_replicate]
      omega
    · omega
  · split
    · rw [parseNatChars_zeros, parseNatChars_writeNatChars]
    · rw [parseNatChars_writeNatChars]

theorem stripSign_decChars (m : Int) (e : Nat) (he : 1 ≤ e) :
    ∃ pad : List Char,
      hasSign (decChars m e) = decide (m < 0)
      ∧ stripSign (decChars m e)
          = pad.take (pad.length - e) ++ '.' :: pad.drop (pad.length - e)
      ∧ (∀ c ∈ pad, c.isDigit = true)
      ∧ e + 1 ≤ pad.length
      ∧ parseNatChars pad = m.natAbs := by
  obtain ⟨pad, heq, hdig, hlen, hval⟩ := decChars_eq m e he
  refine ⟨pad, ?_⟩
  by_cases hm : m < 0
  · rw [heq, if_pos hm]
    have hsg : hasSign ('-' :: (pad.take (pad.length - e)
        ++ '.' :: pad.drop (pad.length - e))) = true := rfl
    refine ⟨by simp [hsg, hm], ?_, hdig, hlen, hval⟩
    simp [stripSign, hsg]
  · rw [heq, if_neg hm]
    rcases ht : pad.take (pad.length - e) with _ | ⟨c, t⟩
    · exfalso
      have : (pad.take (pad.length - e)).length = min (pad.length - e) pad.length :=
        List.length_take _ _
      rw [ht] at this
      simp at this
      omega
    · have hcd : c.isDigit = true := by
        have : c ∈ pad.take (pad.length - e) := ht ▸ List.mem_cons_self c t
        exact hdig c (List.mem_of_mem_take this)
      have hcs : c ≠ '-' := by
        intro hcc
        subst hcc
        simp at hcd
      have hsgc : hasSign (c :: (t ++ '.' :: pad.drop (pad.length - e))) = false := by
        simp [hasSign, hcs]
      constructor
      · rw [List.nil_append, List.cons_append, hsgc]
        simp [hm]
      · refine ⟨?_, hdig, hlen, hval⟩
        rw [List.nil_append, List.cons_append, stripSign, hsgc]
        simp

theorem splitOnChar_dot_stripSign_decChars (m : Int) (e : Nat) (he : 1 ≤ e) :
    ∃ A B : List Char,
      splitOnChar '.' (stripSign (decChars m e)) = [A, B]
      ∧ A ≠ [] ∧ B ≠ []
      ∧ (∀ c ∈ A, c.isDigit = true) ∧ (∀ c ∈ B, c.isDigit = true)
      ∧ B.length = e
      ∧ parseNatChars (A ++ B) = m.natAbs
      ∧ hasSign (decChars m e) = decide (m < 0) := by
  obtain ⟨pad, hsg, hstrip, hdig, hlen, hval⟩ := stripSign_decChars m e he
  set A := pad.take (pad.length - e) with hA
  set B := pad.drop (pad.length - e) with hB
  have hAd : ∀ c ∈ A, c.isDigit = true := fun c hc => hdig c (List.mem_of_mem_take hc)
  have hBd : ∀ c ∈ B, c.isDigit = true := fun c hc => hdig c (List.mem_of_mem_drop hc)
  have hAlen : A.length = pad.length - e := by
    rw [hA, List.length_take]
    omega
  have hBlen : B.length = e := by
    rw [hB, List.length_drop]
    omega
  have hAne : A ≠ [] := by
    intro hnil
    rw [hnil] at hAlen
    simp at hAlen
    omega
  have hBne : B ≠ [] := by
    intro hnil
    rw [hnil] at hBlen
    simp at hBlen
    omega
  have hdotA : '.' ∉ A := by
    intro hm
    have := hAd _ hm
    simp at this
  have hdotB : '.' ∉ B := by
    intro hm
    have := hBd _ hm
    simp at this
  refine ⟨A, B, ?_, hAne, hBne, hAd, hBd, hBlen, ?_, hsg⟩
  · rw [hstrip, splitOnChar_append_cons _ _ _ hdotA, splitOnChar_of_not_mem _ _ hdotB]
  · rw [hA, hB, List.take_append_drop]
    exact hval

theorem decLike_decChars (m : Int) (e : Nat) (he : 1 ≤ e) :
    decLike (decChars m e) = true := by
  obtain ⟨A, B, hsplit, hAne, hBne, hAd, hBd, _, _, _⟩ :=
    splitOnChar_dot_stripSign_decChars m e he
  have hA : A.isEmpty = false := by
    cases A with
    | nil => exact absurd rfl hAne
    | cons x xs => rfl
  have hB : B.isEmpty = false := by
    cases B with
    | nil => exact absurd rfl hBne
    | cons x xs => rfl
  rw [decLike, hsplit]
  simp [hA, hB, List.all_eq_true]
  exact ⟨hAd, hBd⟩

theorem intLike_decChars (m : Int) (e : Nat) (he : 1 ≤ e) :
    intLike (decChars m e) = false := by
  obtain ⟨pad, _, hstrip, _, _, _⟩ := stripSign_decChars m e he
  rw [intLike, hstrip]
  have hdot : '.' ∈ pad.take (pad.length - e) ++ '.' :: pad.drop (pad.length - e) := by
    simp
  rw [Bool.and_eq_false_iff]
  right
  rw [List.all_eq_false]
  exact ⟨'.', hdot, by decide⟩

theorem parseDecCell_decChars (m : Int) (e : Nat) (he : 1 ≤ e) :
    parseDecCell (decChars m e) = Cell.dec m e := by
  obtain ⟨A, B, hsplit, _, _, _, _, hBlen, hval, hsg⟩ :=
    splitOnChar_dot_stripSign_decChars m e he
  have hil : intLike (decChars m e) = false := intLike_decChars m e he
  rw [parseDecCell, if_neg (by rw [hil]; simp), hsplit]
  simp only [hsg]
  by_cases hm : m < 0
  · rw [if_pos (by simp [hm]), hval, hBlen]
    congr 1
    omega
  · rw [if_neg (by simp [hm]), hval, hBlen]
    congr 1
    omega

/-! ### Cell and column round-trip -/

theorem all_false_of_mem {α : Type} (l : List α) (p : α → Bool) (x : α)
    (hx : x ∈ l) (hp : p x = false) : l.all p = false := by
  cases hall : l.all p
  · rfl
  · exfalso
    have hpx := List.all_eq_true.1 hall x hx
    rw [hp] at hpx
    exact Bool.false_ne_true hpx

theorem mem_writeIntChars (n : Int) (x : Char) (hx : x ∈ writeIntChars n) :
    x = '-' ∨ x.isDigit = true := by
  rw [writeIntChars] at hx
  rcases List.mem_append.1 hx with hm | hm
  · split at hm
    · simp at hm
      exact Or.inl hm
    · simp at hm
  · exact Or.inr (writeNatChars_all_digit _ x hm)

theorem mem_decChars (m : Int) (e : Nat) (he : 1 ≤ e) (x : Char)
    (hx : x ∈ decChars m e) : x = '-' ∨ x = '.' ∨ x.isDigit = true := by
  obtain ⟨pad, heq, hdig, _, _⟩ := decChars_eq m e he
  rw [heq] at hx
  rcases List.mem_append.1 hx with hm | hm
  · split at hm
    · simp at hm
      exact Or.inl hm
    · simp at hm
  · rcases List.mem_append.1 hm with hm2 | hm2
    · exact Or.inr (Or.inr (hdig x (List.mem_of_mem_take hm2)))
    · rcases List.mem_cons.1 hm2 with he2 | hm3
      · exact Or.inr (Or.inl he2)
      · exact Or.inr (Or.inr (hdig x (List.mem_of_mem_drop hm3)))

/-- CSV-special characters do not occur in a well-formed cell's rendering. -/
theorem cellChars_no_sep (c : Cell) (hg : goodCell c) (x : Char)
    (hx : x ∈ cellChars c) : x ≠ ',' ∧ x ≠ '\n' := by
  cases c with
  | int n =>
    rcases mem_writeIntChars n x hx with rfl | hd
    · exact ⟨by decide, by decide⟩
    · constructor <;> (intro he; subst he; simp at hd)
  | dec m e =>
    rcases mem_decChars m e hg x hx with rfl | rfl | hd
    · exact ⟨by decide, by decide⟩
    · exact ⟨by decide, by decide⟩
    · constructor <;> (intro he; subst he; simp at hd)
  | str s =>
    obtain ⟨⟨_, hns⟩, _, _, _⟩ := hg
    obtain ⟨h1, h2, _, _⟩ := hns x hx
    exact ⟨h1, h2⟩

theorem cellChars_ne_nil (c : Cell) (hg : goodCell c) : cellChars c ≠ [] := by
  cases c with
  | int n =>
    rw [cellChars, writeIntChars]
    intro hnil
    rcases List.append_eq_nil.1 hnil with ⟨_, h2⟩
    exact writeNatChars_ne_nil _ h2
  | dec m e =>
    obtain ⟨pad, heq, _, _, _⟩ := decChars_eq m e hg
    rw [cellChars, heq]
    intro hnil
    rcases List.append_eq_nil.1 hnil with ⟨_, h2⟩
    rcases List.append_eq_nil.1 h2 with ⟨_, h3⟩
    simp at h3
  | str s => exact hg.1.1

theorem inferColumn_nil : inferColumn [] = [] := rfl

theorem inferColumn_int (cells : List Cell)
    (h : ∀ c ∈ cells, c.isIntCell = true) :
    inferColumn (cells.map cellChars) = cells := by
  have hall : (cells.map cellChars).all intLike = true := by
    rw [List.all_eq_true]
    intro l hl
    rcases List.mem_map.1 hl with ⟨c, hc, rfl⟩
    cases c with
    | int n => exact intLike_writeIntChars n
    | dec m e => exact absurd (h _ hc) (by simp [Cell.isIntCell])
    | str s => exact absurd (h _ hc) (by simp [Cell.isIntCell])
  rw [inferColumn, if_pos hall, List.map_map]
  have : cells.map (fun c => Cell.int (parseIntChars (cellChars c))) = cells.map id := by
    apply List.map_congr_left
    intro c hc
    cases c with
    | int n => simp [cellChars, parseIntChars_writeIntChars]
    | dec m e => exact absurd (h _ hc) (by simp [Cell.isIntCell])
    | str s => exact absurd (h _ hc) (by simp [Cell.isIntCell])
  rw [show ((fun l => Cell.int (parseIntChars l)) ∘ cellChars)
      = fun c => Cell.int (parseIntChars (cellChars c)) from rfl, this, List.map_id]

theorem inferColumn_dec (cells : List Cell)
    (h : ∀ c ∈ cells, c.isDecCell = true) (hg : ∀ c ∈ cells, goodCell c) :
    inferColumn (cells.map cellChars) = cells := by
  cases cells with
  | nil => rfl
  | cons c0 rest =>
    obtain ⟨m0, e0, rfl⟩ : ∃ m0 e0, c0 = Cell.dec m0 e0 := by
      cases c0 with
      | dec m0 e0 => exact ⟨m0, e0, rfl⟩
      | int n => exact absurd (h _ (List.mem_cons_self _ _)) (by simp [Cell.isDecCell])
      | str s => exact absurd (h _ (List.mem_cons_self _ _)) (by simp [Cell.isDecCell])
    have he0 : 1 ≤ e0 := hg _ (List.mem_cons_self _ _)
    have hint : ((Cell.dec m0 e0 :: rest).map cellChars).all intLike = false := by
      apply all_false_of_mem _ _ (cellChars (Cell.dec m0 e0))
        (List.mem_map_of_mem _ (List.mem_cons_self _ _))
      exact intLike_decChars m0 e0 he0
    have hnum : ((Cell.dec m0 e0 :: rest).map cellChars).all numberLike = true := by
      rw [List.all_eq_true]
      intro l hl
      rcases List.mem_map.1 hl with ⟨c, hc, rfl⟩
      obtain ⟨m, e, rfl⟩ : ∃ m e, c = Cell.dec m e := by
        cases c with
        | dec m e => exact ⟨m, e, rfl⟩
        | int n => exact absurd (h _ hc) (by simp [Cell.isDecCell])
        | str s => exact absurd (h _ hc) (by simp [Cell.isDecCell])
      simp only [numberLike, cellChars]
      rw [decLike_decChars m e (hg _ hc)]
      simp
    rw [inferColumn, if_neg (by rw [hint]; simp), if_pos hnum, List.map_map]
    have : (Cell.dec m0 e0 :: rest).map (parseDecCell ∘ cellChars)
        = (Cell.dec m0 e0 :: rest).map id := by
      apply List.map_congr_left
      intro c hc
      obtain ⟨m, e, rfl⟩ : ∃ m e, c = Cell.dec m e := by
        cases c with
        | dec m e => exact ⟨m, e, rfl⟩
        | int n => exact absurd (h _ hc) (by simp [Cell.isDecCell])
        | str s => exact absurd (h _ hc) (by simp [Cell.isDecCell])
      simp only [Function.comp_apply, cellChars, id_eq]
      exact parseDecCell_decChars m e (hg _ hc)
    rw [this, List.map_id]

theorem inferColumn_str (cells : List Cell)
    (h : ∀ c ∈ cells, c.isStrCell = true) (hg : ∀ c ∈ cells, goodCell c) :
    inferColumn (cells.map cellChars) = cells := by
  cases cells with
  | nil => rfl
  | cons c0 rest =>
    obtain ⟨s0, rfl⟩ : ∃ s0, c0 = Cell.str s0 := by
      cases c0 with
      | str s0 => exact ⟨s0, rfl⟩
      | int n => exact absurd (h _ (List.mem_cons_self _ _)) (by simp [Cell.isStrCell])
      | dec m e => exact absurd (h _ (List.mem_cons_self _ _)) (by simp [Cell.isStrCell])
    obtain ⟨_, hil0, hdl0, _⟩ := hg _ (List.mem_cons_self _ _)
    have hint : ((Cell.str s0 :: rest).map cellChars).all intLike = false :=
      all_false_of_mem _ _ (cellChars (Cell.str s0))
        (List.mem_map_of_mem _ (List.mem_cons_self _ _)) hil0
    have hnum : ((Cell.str s0 :: rest).map cellChars).all numberLike = false := by
      apply all_false_of_mem _ _ (cellChars (Cell.str s0))
        (List.mem_map_of_mem _ (List.mem_cons_self _ _))
      simp only [numberLike, cellChars]
      rw [hil0, hdl0]
      rfl
    rw [inferColumn, if_neg (by rw [hint]; simp), if_neg (by rw [hnum]; simp),
      List.map_map]
    have : (Cell.str s0 :: rest).map ((fun l => Cell.str (String.mk l)) ∘ cellChars)
        = (Cell.str s0 :: rest).map id := by
      apply List.map_congr_left
      intro c hc
      obtain ⟨s, rfl⟩ : ∃ s, c = Cell.str s := by
        cases c with
        | str s => exact ⟨s, rfl⟩
        | int n => exact absurd (h _ hc) (by simp [Cell.isStrCell])
        | dec m e => exact absurd (h _ hc) (by simp [Cell.isStrCell])
      simp only [Function.comp_apply, cellChars, id_eq]
    rw [this, List.map_id]

/-- Per-column round trip: a homogeneous column of well-formed cells survives
printing and dtype-inferred parsing. -/
theorem inferColumn_roundtrip (cells : List Cell) (hh : homogeneousCol cells)
    (hg : ∀ c ∈ cells, goodCell c) :
    inferColumn (cells.map cellChars) = cells := by
  rcases hh with h | h | h
  · exact inferColumn_int cells h
  · exact inferColumn_dec cells h hg
  · exact inferColumn_str cells h hg

/-! ### Dataframe-level CSV round trip -/

theorem strMkData (s : String) : String.mk s.data = s := rfl

theorem range_map_getD {α β : Type} (l : List α) (d : α) (f : α → β) :
    (List.range l.length).map (fun i => f (l.getD i d)) = l.map f := by
  induction l with
  | nil => rfl
  | cons a t ih =>
    rw [List.length_cons, List.range_succ_eq_map, List.map_cons, List.map_map]
    have he : ((fun i => f ((a :: t).getD i d)) ∘ Nat.succ)
        = fun i => f (t.getD i d) := by
      funext i
      simp
    rw [he, ih]
    simp

/-- The core of claim C9: a well-formed dataframe survives `to_csv` followed
by `read_csv` exactly. -/
theorem readCsv_toCsv (df : DataFrame) (hgd : GoodDf df) :
    readCsv (toCsv df) = some df := by
  obtain ⟨hne, hrect, hcols⟩ := hgd
  have hcellgood : ∀ c ∈ df, ∀ i, goodCell (c.2.getD i (Cell.int 0)) := by
    intro c hc i
    by_cases hi : i < c.2.length
    · rw [List.getD_eq_getElem c.2 _ hi]
      exact (hcols c hc).2.2 _ (List.getElem_mem hi)
    · rw [List.getD_eq_default c.2 _ (by omega)]
      trivial
  -- the two joins contain no newline / no comma in their parts
  have hnames_ne : df.map (fun c => c.1.data) ≠ [] := by
    cases df with
    | nil => exact absurd rfl hne
    | cons c t => simp
  have hrow_parts : ∀ i, ∀ p ∈ df.map (fun c => cellChars (c.2.getD i (Cell.int 0))),
      ',' ∉ p := by
    intro i p hp hcm
    rcases List.mem_map.1 hp with ⟨c, hc, rfl⟩
    exact (cellChars_no_sep _ (hcellgood c hc i) ',' hcm).1 rfl
  have hname_parts : ∀ p ∈ df.map (fun c => c.1.data), ',' ∉ p := by
    intro p hp hcm
    rcases List.mem_map.1 hp with ⟨c, hc, rfl⟩
    exact ((hcols c hc).1.2 ',' hcm).1 rfl
  have hlines_nl : ∀ line ∈ csvLines df, '\n' ∉ line := by
    intro line hline hnl
    rcases List.mem_cons.1 hline with rfl | hm
    · rcases mem_joinChar ',' _ '\n' hnl with he | ⟨p, hp, hxp⟩
      · exact absurd he (by decide)
      · rcases List.mem_map.1 hp with ⟨c, hc, rfl⟩
        exact ((hcols c hc).1.2 '\n' hxp).2.1 rfl
    · rcases List.mem_map.1 hm with ⟨i, _, rfl⟩
      rcases mem_joinChar ',' _ '\n' hnl with he | ⟨p, hp, hxp⟩
      · exact absurd he (by decide)
      · rcases List.mem_map.1 hp with ⟨c, hc, rfl⟩
        exact (cellChars_no_sep _ (hcellgood c hc i) '\n' hxp).2 rfl
  have hlines0 : splitOnChar '\n' (toCsv df).data = csvLines df ++ [[]] := by
    show splitOnChar '\n' (joinChar '\n' (csvLines df) ++ ['\n']) = _
    rw [splitOnChar_append_sep,
      splitOnChar_joinChar '\n' (csvLines df) (by simp [csvLines]) hlines_nl]
  rw [readCsv, hlines0]
  rw [List.getLast?_concat, if_pos rfl, List.dropLast_concat]
  show (match csvLines df with
    | [] => none
    | header :: dataLines => _) = some df
  rw [csvLines]
  simp only []
  -- names parse back
  have hnames : splitOnChar ',' (joinChar ',' (df.map (fun c => c.1.data)))
      = df.map (fun c => c.1.data) :=
    splitOnChar_joinChar ',' _ hnames_ne hname_parts
  -- rows parse back
  have hrows : ((List.range (rowCount df)).map
        (fun i => joinChar ',' (df.map (fun c => cellChars (c.2.getD i (Cell.int 0)))))).map
        (splitOnChar ',')
      = (List.range (rowCount df)).map
        (fun i => df.map (fun c => cellChars (c.2.getD i (Cell.int 0)))) := by
    rw [List.map_map]
    apply List.map_congr_left
    intro i _
    exact splitOnChar_joinChar ',' _ (by
      cases df with
      | nil => exact absurd rfl hne
      | cons c t => simp) (hrow_parts i)
  rw [hrows, hnames]
  have hlen_names : (df.map (fun c => c.1.data)).length = df.length := List.length_map df _
  have hall : ((List.range (rowCount df)).map
      (fun i => df.map (fun c => cellChars (c.2.getD i (Cell.int 0))))).all
      (fun r => r.length = (df.map (fun c => c.1.data)).length) = true := by
    rw [List.all_eq_true]
    intro r hr
    rcases List.mem_map.1 hr with ⟨i, _, rfl⟩
    simp
  rw [if_pos hall]
  congr 1
  apply List.ext_getElem
  · simp
  · intro j hj hj2
    have hjd : j < df.length := by simpa using hj2
    rw [List.getElem_map]
    simp only [List.getElem_range]
    have hnd : (df.map (fun c => c.1.data)).getD j [] = df[j].1.data := by
      rw [List.getD_eq_getElem _ _ (by simpa using hjd), List.getElem_map]
    have hcd : ((List.range (rowCount df)).map
          (fun i => df.map (fun c => cellChars (c.2.getD i (Cell.int 0))))).map
          (fun r => r.getD j [])
        = (List.range (rowCount df)).map
          (fun i => cellChars (df[j].2.getD i (Cell.int 0))) := by
      rw [List.map_map]
      apply List.map_congr_left
      intro i _
      show (df.map (fun c => cellChars (c.2.getD i (Cell.int 0)))).getD j [] = _
      rw [List.getD_eq_getElem _ _ (by simpa using hjd), List.getElem_map]
    have hmem : df[j] ∈ df := List.getElem_mem hjd
    have hcollen : df[j].2.length = rowCount df := hrect _ hmem
    have hcol : inferColumn ((List.range (rowCount df)).map
          (fun i => cellChars (df[j].2.getD i (Cell.int 0)))) = df[j].2 := by
      rw [← hcollen, range_map_getD df[j].2 (Cell.int 0) cellChars]
      exact inferColumn_roundtrip df[j].2 (hcols _ hmem).2.1 (hcols _ hmem).2.2
    rw [hnd, hcd, hcol, strMkData]

/-- Every batch outcome is either the error shape (no download) or the
success shape (downloading exactly the CSV text of the final frame). -/
theorem runBatch_shapes (m : ModelObj) (df0 : DataFrame) :
    (∃ dfe e, runBatch m df0 = batchErr dfe e)
    ∨ (∃ dff, runBatch m df0 = batchFinish dff) := by
  cases h1 : m.predict df0 with
  | error e => exact Or.inl ⟨df0, e, by simp [runBatch, h1]⟩
  | ok preds =>
    cases h2 : setCol? df0 "Prediction" preds with
    | none => exact Or.inl ⟨df0, "ValueError", by simp [runBatch, h1, h2]⟩
    | some df1 =>
      cases hp : m.hasProba with
      | false => exact Or.inr ⟨df1, by simp [runBatch, h1, h2, hp]⟩
      | true =>
        cases h3 : m.predictProba df1 with
        | error e => exact Or.inl ⟨df1, e, by simp [runBatch, h1, h2, hp, h3]⟩
        | ok rows =>
          cases h4 : sliceCol1 rows with
          | none =>
            exact Or.inl ⟨df1, "IndexError", by simp [runBatch, h1, h2, hp, h3, h4]⟩
          | some probs =>
            cases h5 : setCol? df1 "Probability"
                (probs.map (fun d => Cell.dec d.m d.e)) with
            | none =>
              exact Or.inl ⟨df1, "ValueError", by simp [runBatch, h1, h2, hp, h3, h4, h5]⟩
            | some df2 => exact Or.inr ⟨df2, by simp [runBatch, h1, h2, hp, h3, h4, h5]⟩

/-- Claim C9: whenever the batch flow offers a download, its payload is the
CSV text of the augmented frame (header row included, no index column),
named `predictions.csv` with MIME `text/csv`, and — for well-formed frames
(nonempty, rectangular, separator-free names, homogeneous columns, floats
with a dot, strings that are not number/bool/NA-shaped) — parsing that text
back reproduces the augmented frame exactly. -/
theorem csv_roundtrip_spec (m : ModelObj) (df0 : DataFrame)
    (txt fn mime : String)
    (hdl : (runBatch m df0).download = some (txt, fn, mime))
    (hgood : GoodDf (runBatch m df0).df) :
    txt = toCsv (runBatch m df0).df
    ∧ fn = "predictions.csv" ∧ mime = "text/csv"
    ∧ readCsv txt = some ((runBatch m df0).df) := by
  rcases runBatch_shapes m df0 with ⟨dfe, e, hsh⟩ | ⟨dff, hsh⟩
  · rw [hsh] at hdl
    exact absurd hdl (by simp [batchErr])
  · rw [hsh] at hdl hgood ⊢
    simp only [batchFinish, Option.some.injEq, Prod.mk.injEq] at hdl
    obtain ⟨ht, hf, hm⟩ := hdl
    subst ht
    refine ⟨rfl, hf.symm ▸ rfl, hm.symm ▸ rfl, ?_⟩
    exact readCsv_toCsv dff hgood

/-- Witness for C9: a one-row upload augmented with a string prediction and a
float probability round-trips through the exported CSV text. -/
theorem csv_roundtrip_spec_witness :
    toCsv (runBatch
        ⟨0, fun _ => .ok [Cell.str "Presence"], true,
          fun _ => .ok [[Dec.mk 25 2, Dec.mk 75 2]]⟩
        [("Age", [Cell.int 50])]).df
      = toCsv (runBatch
        ⟨0, fun _ => .ok [Cell.str "Presence"], true,
          fun _ => .ok [[Dec.mk 25 2, Dec.mk 75 2]]⟩
        [("Age", [Cell.int 50])]).df
    ∧ "predictions.csv" = "predictions.csv" ∧ "text/csv" = "text/csv"
    ∧ readCsv (toCsv (runBatch
        ⟨0, fun _ => .ok [Cell.str "Presence"], true,
          fun _ => .ok [[Dec.mk 25 2, Dec.mk 75 2]]⟩
        [("Age", [Cell.int 50])]).df)
      = some ((runBatch
        ⟨0, fun _ => .ok [Cell.str "Presence"], true,
          fun _ => .ok [[Dec.mk 25 2, Dec.mk 75 2]]⟩
        [("Age", [Cell.int 50])]).df) :=
  csv_roundtrip_spec
    ⟨0, fun _ => .ok [Cell.str "Presence"], true,
      fun _ => .ok [[Dec.mk 25 2, Dec.mk 75 2]]⟩
    [("Age", [Cell.int 50])] _ "predictions.csv" "text/csv" rfl (by decide)

end HeartApp
